import Mathlib

/-!
Verification of the pagination-and-normalization engine of the
`bluesky_search` repository against its natural-language specification.

Python strings are embedded as `List Char` (Unicode codepoints).  Each
definition below is a direct translation of the named function in the
Python source; fallible calls into the network client are modelled as
oracles returning `Option`, where `none` stands for a raised exception.
-/

/-- The double-quote character `"` (written via its codepoint to keep the
source free of quote-character literals). -/
def dquote : Char := Char.ofNat 34

/-- The single-quote character `'`. -/
def squote : Char := Char.ofNat 39

/-- Python `str.isspace` (the set stripped by `str.strip()` with no
arguments): ASCII whitespace, the C0 separators 0x1C–0x1F, and the
Unicode space codepoints. -/
def isPySpace (c : Char) : Bool :=
  let n := c.toNat
  (9 ≤ n && n ≤ 13) || (28 ≤ n && n ≤ 31) || n = 32 || n = 0x85 || n = 0xA0 ||
    n = 0x1680 || (0x2000 ≤ n && n ≤ 0x200A) || n = 0x2028 || n = 0x2029 ||
    n = 0x202F || n = 0x205F || n = 0x3000

/-- Python `s.strip(chars)` restricted to a character predicate: drop
matching characters from both ends. -/
def pyStripBy (p : Char → Bool) (s : List Char) : List Char :=
  ((s.dropWhile p).reverse.dropWhile p).reverse

/-- Is `c` one of the two quote characters `"` `'`? -/
def isQuoteChar (c : Char) : Bool := c = dquote || c = squote

/-- `sanitize_uri_component` from `utils/text.py`: strip whitespace, then
surrounding double quotes, then surrounding single quotes, then whitespace
again; remove every remaining quote character (`re.sub(r'["\']+', '')`);
remove C0 control characters and DEL (`re.sub(r'[\x00-\x1F\x7F]', '')`). -/
def sanitize_uri_component (s : List Char) : List Char :=
  if s = [] then []
  else
    let s1 := pyStripBy isPySpace s
    let s2 := pyStripBy (fun c => c = dquote) s1
    let s3 := pyStripBy (fun c => c = squote) s2
    let s4 := pyStripBy isPySpace s3
    let s5 := s4.filter (fun c => !isQuoteChar c)
    s5.filter (fun c => !(c.toNat ≤ 0x1F || c.toNat = 0x7F))

example :
    sanitize_uri_component ("  \"abc'def\"  ".toList) = ("abcdef".toList) := by decide

example :
    sanitize_uri_component (squote :: dquote :: (" a".toList)) = (" a".toList) := by decide

example :
    sanitize_uri_component (sanitize_uri_component (squote :: dquote :: (" a".toList)))
      = ("a".toList) := by decide

/-! ### URL / locator parsing (`utils/url.py`) -/

/-- Consume the literal `lit` from the front of `s`; `none` if `s` does not
start with it. -/
def dropLit : List Char → List Char → Option (List Char)
  | [], s => some s
  | _ :: _, [] => none
  | c :: cs, d :: ds => if c = d then dropLit cs ds else none

/-- `re.search`: try the anchored matcher `m` at every position of the
subject (left to right, including the final empty suffix) and return the
first success. -/
def searchFirst (m : List Char → Option α) : List Char → Option α
  | [] => m []
  | c :: t =>
    match m (c :: t) with
    | some x => some x
    | none => searchFirst m t

/-- Anchored matcher for `bsky\.app/profile/([^/]+)/lists/([^/]+)`:
the `[^/]+` groups are the maximal non-empty runs of non-slash characters
(the following literal `/` forces the greedy run to stop at the first
slash, so the match is deterministic). -/
def matchBrowserHere (s : List Char) : Option (List Char × List Char) :=
  match dropLit ("bsky.app/profile/".toList) s with
  | none => none
  | some r1 =>
    let g1 := r1.takeWhile (· ≠ '/')
    if g1 = [] then none
    else
      match dropLit ("/lists/".toList) (r1.dropWhile (· ≠ '/')) with
      | none => none
      | some r2 =>
        let g2 := r2.takeWhile (· ≠ '/')
        if g2 = [] then none else some (g1, g2)

/-- Anchored matcher for `at://([^/]+)/app\.bsky\.graph\.list/([^/]+)`. -/
def matchAtUriHere (s : List Char) : Option (List Char × List Char) :=
  match dropLit ("at://".toList) s with
  | none => none
  | some r1 =>
    let g1 := r1.takeWhile (· ≠ '/')
    if g1 = [] then none
    else
      match dropLit ("/app.bsky.graph.list/".toList) (r1.dropWhile (· ≠ '/')) with
      | none => none
      | some r2 =>
        let g2 := r2.takeWhile (· ≠ '/')
        if g2 = [] then none else some (g1, g2)

/-- Anchored matcher for `(did:[^/]+)/app\.bsky\.graph\.list/([^/]+)`;
the first capture includes the leading `did:`. -/
def matchDidHere (s : List Char) : Option (List Char × List Char) :=
  match dropLit ("did:".toList) s with
  | none => none
  | some r1 =>
    let run := r1.takeWhile (· ≠ '/')
    if run = [] then none
    else
      match dropLit ("/app.bsky.graph.list/".toList) (r1.dropWhile (· ≠ '/')) with
      | none => none
      | some r2 =>
        let g2 := r2.takeWhile (· ≠ '/')
        if g2 = [] then none else some (("did:".toList) ++ run, g2)

/-- The per-group post-processing in `parse_bluesky_list_url`:
`.strip().strip('"').strip("'")`. -/
def cleanGroup (g : List Char) : List Char :=
  pyStripBy (fun c => c = squote)
    (pyStripBy (fun c => c = dquote) (pyStripBy isPySpace g))

/-- Result of `parse_bluesky_list_url`: the captured owner (`handle`) and
list id. -/
structure ListLocator where
  handle : List Char
  list_id : List Char
deriving DecidableEq

/-- `parse_bluesky_list_url` from `utils/url.py`: try the browser-URL
pattern, then the full `at://` URI pattern, then the bare-DID pattern;
first match wins, each captured group is stripped of surrounding
whitespace and quotes; `none` when no pattern matches. -/
def parse_bluesky_list_url (url : List Char) : Option ListLocator :=
  match searchFirst matchBrowserHere url with
  | some (g1, g2) => some ⟨cleanGroup g1, cleanGroup g2⟩
  | none =>
    match searchFirst matchAtUriHere url with
    | some (g1, g2) => some ⟨cleanGroup g1, cleanGroup g2⟩
    | none =>
      match searchFirst matchDidHere url with
      | some (g1, g2) => some ⟨cleanGroup g1, cleanGroup g2⟩
      | none => none

example :
    parse_bluesky_list_url ("https://bsky.app/profile/alice.test/lists/99".toList)
      = some ⟨("alice.test".toList), ("99".toList)⟩ := by decide

example :
    parse_bluesky_list_url ("https://example.org/profile/alice.test/lists/99".toList)
      = none := by decide

example :
    parse_bluesky_list_url ("at://did:plc:xyz/app.bsky.graph.list/99".toList)
      = some ⟨("did:plc:xyz".toList), ("99".toList)⟩ := by decide

example :
    parse_bluesky_list_url ("at://did:plc:xyz/app.example.graph.list/99".toList)
      = none := by decide

example : parse_bluesky_list_url ("not a list url".toList) = none := by decide

/-! ### URL extraction from text (`utils/text.py`) -/

/-- Characters matched by `\w` in the URL regex (modelled on the ASCII
word characters; every input considered here is ASCII). -/
def isWordChar (c : Char) : Bool := c.isAlpha || c.isDigit || c = '_'

/-- Character class `[\w\-\.]` — the host part of the URL regex. -/
def isHostChar (c : Char) : Bool := isWordChar c || c = '-' || c = '.'

/-- Character class `[\w\-\./%?&=+#]` — the path part of the URL regex. -/
def isPathChar (c : Char) : Bool :=
  isHostChar c || c = '/' || c = '%' || c = '?' || c = '&' || c = '=' ||
    c = '+' || c = '#'

/-- Anchored matcher for `https?://[\w\-\.]+(?:/[\w\-\./%?&=+#]*)?`;
returns the matched text and the remaining suffix.  The greedy runs are
deterministic because no continuation follows them. -/
def matchUrlHere (s : List Char) : Option (List Char × List Char) :=
  match dropLit ("http".toList) s with
  | none => none
  | some r =>
    let schemeRest : Option (List Char × List Char) :=
      match dropLit ("s://".toList) r with
      | some x => some (("https://".toList), x)
      | none =>
        match dropLit ("://".toList) r with
        | some x => some (("http://".toList), x)
        | none => none
    match schemeRest with
    | none => none
    | some (pre, r2) =>
      let host := r2.takeWhile isHostChar
      if host = [] then none
      else
        match r2.dropWhile isHostChar with
        | '/' :: r4 =>
          some (pre ++ host ++ '/' :: r4.takeWhile isPathChar,
                r4.dropWhile isPathChar)
        | r3 => some (pre ++ host, r3)

/-- `re.findall` scan: leftmost, non-overlapping matches; after a match,
scanning resumes at the first character past it.  `fuel` bounds the
recursion and is instantiated with the subject length (every match
consumes at least one character, so this is exact). -/
def findAllUrlsAux : Nat → List Char → List (List Char)
  | 0, _ => []
  | _ + 1, [] => []
  | fuel + 1, c :: t =>
    match matchUrlHere (c :: t) with
    | some (m, rest) => m :: findAllUrlsAux fuel rest
    | none => findAllUrlsAux fuel t

/-- `extract_urls_from_text` from `utils/text.py`. -/
def extract_urls_from_text (text : List Char) : List (List Char) :=
  if text = [] then [] else findAllUrlsAux text.length text

/-- The regex-backfill step shared by `search.py` and `fetcher.py`:
starting from the facet-extracted URLs, append each regex-extracted URL
that is not already present. -/
def appendNewUrls (facetUrls : List (List Char)) (text : List Char) :
    List (List Char) :=
  (extract_urls_from_text text).foldl
    (fun acc u => if u ∈ acc then acc else acc ++ [u]) facetUrls

example :
    extract_urls_from_text ("see https://a.example/x and https://a.example/x".toList)
      = [("https://a.example/x".toList), ("https://a.example/x".toList)] := by decide

example :
    appendNewUrls [] ("see https://a.example/x and https://a.example/x".toList)
      = [("https://a.example/x".toList)] := by decide

/-! ### Post-type classification

The raw record's `reply` attribute is modelled as
`Option (Option Unit)`: `none` = attribute absent, `some none` =
attribute present but `None`, `some (some _)` = non-null reply structure.
The feed item's `reason` is modelled as `Option (Option (List Char))`:
the outer level is `hasattr(post, 'reason') and post.reason is not None`,
the inner level is the optional `py_type` attribute of the reason. -/

/-- Python substring test `pat in s` (contiguous). -/
def strContains : List Char → List Char → Bool
  | [], pat => pat.isEmpty
  | c :: t, pat => pat.isPrefixOf (c :: t) || strContains t pat

/-- Python `str.lower()` (ASCII inputs). -/
def lowerL (s : List Char) : List Char := s.map Char.toLower

/-- The shared `reason`-based fallback: `repost` when the reason's
`py_type` contains the substring `repost` (case-insensitively), else
`original`. -/
def reason_class (reason : Option (Option (List Char))) : List Char :=
  match reason with
  | some (some t) =>
    if strContains (lowerL t) ("repost".toList) then ("repost".toList)
    else ("original".toList)
  | some none => ("original".toList)
  | none => ("original".toList)

/-- Post-type classification in `fetcher.get_user_posts`: `reply` for a
non-null reply structure; otherwise compare the author DID against
`client._me.did` when a session account is present, else against the DID
obtained by a profile lookup of the requested handle (`ownerDid`, an
`Except` since the lookup can raise); on a lookup failure fall back to
the `reason` heuristic. -/
def classify_user_post (reply : Option (Option Unit)) (authorDid : List Char)
    (meDid : Option (List Char)) (ownerDid : Except Unit (List Char))
    (reason : Option (Option (List Char))) : List Char :=
  match reply with
  | some (some _) => ("reply".toList)
  | _ =>
    let userDid : Except Unit (List Char) :=
      match meDid with
      | some d => .ok d
      | none => ownerDid
    match userDid with
    | .ok d => if authorDid ≠ d then ("repost".toList) else ("original".toList)
    | .error _ => reason_class reason

/-- Post-type classification in `list.get_posts_from_bluesky_list`:
`reply` for a non-null reply structure, else the `reason` heuristic. -/
def classify_list_post (reply : Option (Option Unit))
    (reason : Option (Option (List Char))) : List Char :=
  match reply with
  | some (some _) => ("reply".toList)
  | _ => reason_class reason

/-- Post-type classification in `search.search_posts`: `reply` for a
non-null reply structure; else `original` when a non-empty `from_user`
filter is a case-insensitive substring of the author handle; else the
`reason` heuristic. -/
def classify_search_post (reply : Option (Option Unit))
    (fromUser : Option (List Char)) (authorHandle : List Char)
    (reason : Option (Option (List Char))) : List Char :=
  match reply with
  | some (some _) => ("reply".toList)
  | _ =>
    let users : List (List Char) :=
      match fromUser with
      | some u => if u.isEmpty then [] else [u]
      | none => []
    if !users.isEmpty &&
        users.any (fun u => strContains (lowerL authorHandle) (lowerL u)) then
      ("original".toList)
    else reason_class reason

/-- Post-type classification in `list.get_list_feed`: the default is the
string `post`, overridden to `reply` whenever the record has a `reply`
attribute (`hasattr` only — a present-but-null reply also counts). -/
def classify_feed_post (reply : Option (Option Unit)) : List Char :=
  match reply with
  | some _ => ("reply".toList)
  | none => ("post".toList)

/-! ### Grouping a post list by author handle -/

/-- One step of the `results[author_handle].append(post)` idiom: append
`p` to the bucket of key `h`, creating the bucket at the end when the key
is new (Python dicts preserve insertion order). -/
def addToGroup (m : List (List Char × List α)) (h : List Char) (p : α) :
    List (List Char × List α) :=
  match m with
  | [] => [(h, [p])]
  | (k, ps) :: rest =>
    if k = h then (k, ps ++ [p]) :: rest else (k, ps) :: addToGroup rest h p

/-- The grouping loop shared by `get_posts_from_search`,
`get_posts_from_bluesky_list` and `get_list_feed`: organize the
normalized posts by `post['author']['handle']`. -/
def organize_by_author (key : α → List Char) (posts : List α) :
    List (List Char × List α) :=
  posts.foldl (fun m p => addToGroup m (key p) p) []

/-- Read a bucket out of the grouped mapping (empty when absent). -/
def lookupGroup (m : List (List Char × List α)) (h : List Char) : List α :=
  match m with
  | [] => []
  | (k, ps) :: rest => if k = h then ps else lookupGroup rest h

/-- Total number of posts in a grouped mapping. -/
def groupSize (m : List (List Char × List α)) : Nat :=
  (m.map (fun kv => kv.2.length)).sum

/-! ### List-address resolution (`list.get_posts_from_bluesky_list`)

`env` is the oracle for `client.app.bsky.graph.get_list`: `none` means the
call raised.  The model records, in order, every address passed to the
call (`attempted`) and every address included in a printed message
(`reported`). -/

/-- Keep only `[a-zA-Z0-9]` — `re.sub(r'[^a-zA-Z0-9]+', '', list_id)`. -/
def isAsciiAlnum (c : Char) : Bool :=
  (97 ≤ c.toNat && c.toNat ≤ 122) || (65 ≤ c.toNat && c.toNat ≤ 90) ||
    (48 ≤ c.toNat && c.toNat ≤ 57)

/-- The canonical address `at://<did>/app.bsky.graph.list/<list_id>`. -/
def listUriFromParts (did lid : List Char) : List Char :=
  ("at://".toList) ++ did ++ ("/app.bsky.graph.list/".toList) ++ lid

/-- The alternative address format without the `at://` scheme. -/
def altUriFromParts (did lid : List Char) : List Char :=
  did ++ ("/app.bsky.graph.list/".toList) ++ lid

/-- The defensive double-clean of the constructed URI: when a quote
character survived sanitization, remove every quote
(`re.sub(r'["\']+', '', list_uri)`). -/
def dedupQuotes (u : List Char) : List Char :=
  if u.any isQuoteChar then u.filter (fun c => !isQuoteChar c) else u

/-- Outcome of the address-resolution prefix of
`get_posts_from_bluesky_list` (lines 90–166): the response the function
proceeds with (`none` = it returns `{}`), the addresses attempted and the
addresses reported in diagnostics. -/
structure ResolveOut (ρ : Type) where
  response : Option ρ
  attempted : List (List Char)
  reported : List (List Char)

/-- The canonical address the function first calls with: sanitize both
inputs, build `at://<did>/app.bsky.graph.list/<list_id>`, and apply the
defensive quote removal. -/
def canonicalUri (did0 lid0 : List Char) : List Char :=
  dedupQuotes (listUriFromParts (sanitize_uri_component did0)
    (sanitize_uri_component lid0))

/-- The alternative address used after re-sanitizing both (already
sanitized) components: `<did>/app.bsky.graph.list/<list_id>`. -/
def cleanAltUri (did0 lid0 : List Char) : List Char :=
  altUriFromParts (sanitize_uri_component (sanitize_uri_component did0))
    (sanitize_uri_component (sanitize_uri_component lid0))

/-- The trailing-quote retry (`if list_uri.endswith('"')`): attempted only
when the canonical URI ends in a double quote. -/
def quoteRetryAtt (did0 lid0 : List Char) : List (List Char) :=
  if (canonicalUri did0 lid0).getLast? = some dquote then
    [(canonicalUri did0 lid0).dropLast]
  else []

/-- The value of the `list_uri` variable at the diagnostic block (possibly
truncated by the trailing-quote retry). -/
def quoteStrippedUri (did0 lid0 : List Char) : List Char :=
  if (canonicalUri did0 lid0).getLast? = some dquote then
    (canonicalUri did0 lid0).dropLast
  else canonicalUri did0 lid0

/-- The final retry (`re.sub(r'[^a-zA-Z0-9]+', '', list_id)`): attempted
only when the alphanumeric-stripped list id differs from the clean one. -/
def finalRetryAtt (did0 lid0 : List Char) : List (List Char) :=
  if (sanitize_uri_component lid0).filter isAsciiAlnum
      ≠ sanitize_uri_component (sanitize_uri_component lid0) then
    [altUriFromParts (sanitize_uri_component (sanitize_uri_component did0))
      ((sanitize_uri_component lid0).filter isAsciiAlnum)]
  else []

/-- The `get_list` fallback chain of `get_posts_from_bluesky_list`,
translated branch by branch: call with the canonical URI; on failure
retry without a trailing double quote (when one is present — its result
is overwritten by the next attempt), then with the schemeless
alternative format; when that also raises, the final alphanumeric retry
is attempted but its result is discarded: control falls through to the
diagnostic block and the function returns `{}`. -/
def resolve_list (env : List Char → Option ρ) (did0 lid0 : List Char) :
    ResolveOut ρ :=
  match env (canonicalUri did0 lid0) with
  | some r => ⟨some r, [canonicalUri did0 lid0], [canonicalUri did0 lid0]⟩
  | none =>
    match env (cleanAltUri did0 lid0) with
    | some r2 =>
      ⟨some r2,
        canonicalUri did0 lid0 :: quoteRetryAtt did0 lid0
          ++ [cleanAltUri did0 lid0],
        canonicalUri did0 lid0 :: quoteRetryAtt did0 lid0
          ++ [cleanAltUri did0 lid0]⟩
    | none =>
      ⟨none,
        canonicalUri did0 lid0 :: quoteRetryAtt did0 lid0
          ++ [cleanAltUri did0 lid0] ++ finalRetryAtt did0 lid0,
        canonicalUri did0 lid0 :: quoteRetryAtt did0 lid0
          ++ [cleanAltUri did0 lid0] ++ finalRetryAtt did0 lid0
          ++ [quoteStrippedUri did0 lid0, cleanAltUri did0 lid0]⟩

/-- `get_posts_from_bluesky_list` at the fetch boundary: when resolution
fails the function returns the empty mapping; otherwise it continues with
the successful response (pagination, normalization and grouping,
abstracted as `pipeline`). -/
def get_posts_from_bluesky_list_model (env : List Char → Option ρ)
    (pipeline : ρ → List (List Char × List α)) (did0 lid0 : List Char) :
    List (List Char × List α) :=
  match (resolve_list env did0 lid0).response with
  | none => []
  | some r => pipeline r

/-! ### Pagination drivers (`fetcher.get_user_posts`,
`search.search_posts`)

`feed` is the oracle for one page call: arguments are the call index and
the requested limit.  For the fetcher driver the result is an `Option`
(`none` = the call raised, which breaks the loop after the call was
issued).  Each driver returns the list of per-call requested limits (the
issued calls, in order) together with the accumulated posts. -/

/-- One page of an API response. -/
structure FeedPage (α : Type) where
  posts : List α
  hasCursor : Bool

/-- The Python ceiling computation `max(1, (limit + 99) // 100)` (`//` is
floor division, `Int.fdiv`). -/
def apiCallsNeeded (limit : Int) : Nat :=
  (max 1 ((limit + 99).fdiv 100)).toNat

/-- Body of the pagination loop in `fetcher.get_user_posts`: request
`min(100, limit - collected)` (stop before calling when that is ≤ 0);
stop after a call that raises or returns an empty page; the loop runs at
most `fuel` iterations. -/
def user_posts_aux (feed : Nat → Int → Option (FeedPage α)) (limit : Int) :
    Nat → Nat → Int → List Int × List α
  | 0, _, _ => ([], [])
  | fuel + 1, i, collected =>
    let cur := min 100 (limit - collected)
    if cur ≤ 0 then ([], [])
    else
      match feed i cur with
      | none => ([cur], [])
      | some page =>
        if page.posts.length = 0 then ([cur], [])
        else
          let r := user_posts_aux feed limit fuel (i + 1)
            (collected + (page.posts.length : Int))
          (cur :: r.1, page.posts ++ r.2)

/-- The pagination loop of `fetcher.get_user_posts` (lines 62–221). -/
def get_user_posts_run (feed : Nat → Int → Option (FeedPage α))
    (limit : Int) : List Int × List α :=
  user_posts_aux feed limit (apiCallsNeeded limit) 0 0

/-- Body of the pagination loop in `search.search_posts`: as the fetcher
loop, but additionally stops after a page when the response has no cursor
or the collected count reached the requested limit. -/
def search_posts_aux (feed : Nat → Int → FeedPage α) (limit : Int) :
    Nat → Nat → Int → List Int × List α
  | 0, _, _ => ([], [])
  | fuel + 1, i, collected =>
    let cur := min 100 (limit - collected)
    if cur ≤ 0 then ([], [])
    else
      let page := feed i cur
      if page.posts.length = 0 then ([cur], [])
      else
        let c2 := collected + (page.posts.length : Int)
        if page.hasCursor = false ∨ limit ≤ c2 then ([cur], page.posts)
        else
          let r := search_posts_aux feed limit fuel (i + 1) c2
          (cur :: r.1, page.posts ++ r.2)

/-- The pagination loop of `search.search_posts` (lines 68–346). -/
def search_posts_run (feed : Nat → Int → FeedPage α) (limit : Int) :
    List Int × List α :=
  search_posts_aux feed limit (apiCallsNeeded limit) 0 0

/-! ## Helper lemmas -/

/-- `reason_class` only ever produces `repost` or `original`. -/
theorem reason_class_cases (r : Option (Option (List Char))) :
    reason_class r = ("repost".toList) ∨ reason_class r = ("original".toList) := by
  rcases r with _ | (_ | t)
  · simp [reason_class]
  · simp [reason_class]
  · simp only [reason_class]
    split <;> simp

/-- The three post-type enum values of the spec's data model. -/
def postTypeEnum : List (List Char) :=
  [("original".toList), ("reply".toList), ("repost".toList)]

/-! ## Claims -/

/-- C1 (amended): every post produced by the user-timeline fetch
(`fetcher.get_user_posts`), the list fetch
(`list.get_posts_from_bluesky_list`) and the search fetch
(`search.search_posts`) has `post_type` equal to one of `original`,
`reply`, `repost`; the list-feed fetch (`list.get_list_feed`) instead
produces `reply` or the out-of-enum default `post`. -/
theorem C1_post_type_enum :
    (∀ reply authorDid meDid ownerDid reason,
        classify_user_post reply authorDid meDid ownerDid reason ∈ postTypeEnum)
    ∧ (∀ reply reason, classify_list_post reply reason ∈ postTypeEnum)
    ∧ (∀ reply fromUser authorHandle reason,
        classify_search_post reply fromUser authorHandle reason ∈ postTypeEnum)
    ∧ (∀ reply, classify_feed_post reply ∈ [("reply".toList), ("post".toList)]) := by
  refine ⟨?_, ?_, ?_, ?_⟩
  · intro reply authorDid meDid ownerDid reason
    rcases reply with _ | (_ | _)
    case some.some => simp [classify_user_post, postTypeEnum]
    all_goals
      rcases meDid with _ | d
      case none =>
        rcases ownerDid with e | d
        · rcases reason_class_cases reason with h | h <;>
            simp [classify_user_post, postTypeEnum, h]
        · by_cases had : authorDid = d <;>
            simp [classify_user_post, postTypeEnum, had]
      case some =>
        by_cases had : authorDid = d <;>
          simp [classify_user_post, postTypeEnum, had]
  · intro reply reason
    rcases reply with _ | (_ | _)
    case some.some => simp [classify_list_post, postTypeEnum]
    all_goals
      rcases reason_class_cases reason with h | h <;>
        simp [classify_list_post, postTypeEnum, h]
  · intro reply fromUser authorHandle reason
    rcases reply with _ | (_ | _)
    case some.some => simp [classify_search_post, postTypeEnum]
    all_goals
      simp only [classify_search_post, postTypeEnum]
      split
      · simp
      · rcases reason_class_cases reason with h | h <;> simp [h]
  · intro reply
    rcases reply with _ | _ <;> simp [classify_feed_post]

/-- C1 counterexample: a non-reply record normalized by
`list.get_list_feed` gets `post_type = "post"`, which is not one of the
three enum values, refuting the claim for the list-feed fetch path. -/
theorem C1_counterexample :
    classify_feed_post none = ("post".toList) ∧
      ("post".toList) ∉ postTypeEnum := by decide

/-- C2: `fetcher.get_user_posts` compares the author DID against
`client._me.did` (the logged-in account) whenever a session is present —
not against the timeline owner's DID as the claim (and the code's own
comment) state.  A non-reply record authored by the timeline owner
(`did:plc:owner`) is classified `repost` when the session account is
`did:plc:me`; without a session the owner-profile lookup is used and the
same record is classified `original`. -/
theorem C2_me_did_divergence :
    classify_user_post none ("did:plc:owner".toList)
        (some ("did:plc:me".toList)) (.ok ("did:plc:owner".toList)) none
      = ("repost".toList) ∧
    classify_user_post none ("did:plc:owner".toList)
        none (.ok ("did:plc:owner".toList)) none
      = ("original".toList) := by decide

/-- Concrete input refuting the idempotence (and output-cleanliness)
conjuncts of the sanitize claim: a single quote, a double quote, a space,
the C1 control U+0080, and a letter. -/
def exC5 : List Char := squote :: dquote :: ' ' :: Char.ofNat 0x80 :: ['a']

/-- C5 counterexample: stripping the leading quotes exposes interior
whitespace that the function never removes, so the output of
`sanitize_uri_component` on `exC5` contains a space (and a C1 control
character), and a second application changes it — the function is not
idempotent and its output is not whitespace- or C1-control-free. -/
theorem C5_counterexample :
    sanitize_uri_component (sanitize_uri_component exC5)
        ≠ sanitize_uri_component exC5 ∧
    (sanitize_uri_component exC5).any isPySpace = true ∧
    (sanitize_uri_component exC5).any
        (fun c => 0x80 ≤ c.toNat && c.toNat ≤ 0x9F) = true := by decide

/-- C5 (amended): the output of `sanitize_uri_component` contains no
quote character and no C0 control character or DEL, and on the input
consisting of two spaces, a double quote, `abc`, an apostrophe, `def`, a
double quote and two spaces it returns `abcdef`.  (It is not idempotent
and may retain interior whitespace and C1 controls — see the
counterexample.) -/
theorem C5_sanitize_clean :
    (∀ s : List Char, ∀ c ∈ sanitize_uri_component s,
        isQuoteChar c = false ∧ 0x1F < c.toNat ∧ c.toNat ≠ 0x7F) ∧
    sanitize_uri_component ("  \"abc'def\"  ".toList) = ("abcdef".toList) := by
  constructor
  · intro s c hc
    unfold sanitize_uri_component at hc
    by_cases hs : s = []
    · simp [hs] at hc
    · rw [if_neg hs] at hc
      simp only at hc
      have h1 := List.mem_filter.mp hc
      have h2 := List.mem_filter.mp h1.1
      have hq : isQuoteChar c = false := by
        have := h2.2
        simpa using this
      have hctrl := h1.2
      simp only [Bool.not_eq_true', Bool.or_eq_false_iff,
        decide_eq_false_iff_not] at hctrl
      obtain ⟨hle, hne⟩ := hctrl
      exact ⟨hq, by omega, by omega⟩
  · decide

/-- C5 witness: the guarantees instantiated on a concrete sanitized
character. -/
theorem C5_sanitize_clean_witness :
    isQuoteChar 'a' = false ∧ 0x1F < 'a'.toNat ∧ 'a'.toNat ≠ 0x7F :=
  C5_sanitize_clean.1 ("a".toList) 'a' (by decide)

/-- C6 counterexample: the browser pattern requires the literal host
`bsky.app` and the URI patterns require the literal collection
`app.bsky.graph.list`, so both example locators of the claim are
rejected, where the claim asserts successful parses. -/
theorem C6_counterexample :
    parse_bluesky_list_url ("https://example.org/profile/alice.test/lists/99".toList)
        = none ∧
    parse_bluesky_list_url ("at://did:plc:xyz/app.example.graph.list/99".toList)
        = none := by decide

/-- C6 (amended): the three locator shapes are recognized with the
literal `bsky.app` host and `app.bsky.graph.list` collection, first match
winning, and each captured group stripped of surrounding whitespace and
quote characters: the `bsky.app` browser URL and the
`app.bsky.graph.list` protocol URI of the claim parse to the expected
owner/list-id pairs (also when the owner segment carries enclosing
quotes), and an unrecognized string yields no match. -/
theorem C6_parse_cases :
    parse_bluesky_list_url ("https://bsky.app/profile/alice.test/lists/99".toList)
        = some ⟨("alice.test".toList), ("99".toList)⟩ ∧
    parse_bluesky_list_url ("at://did:plc:xyz/app.bsky.graph.list/99".toList)
        = some ⟨("did:plc:xyz".toList), ("99".toList)⟩ ∧
    parse_bluesky_list_url ("not a list url".toList) = none ∧
    parse_bluesky_list_url (("at://".toList) ++ dquote ::
          ("did:plc:xyz".toList) ++ dquote :: ("/app.bsky.graph.list/99".toList))
        = some ⟨("did:plc:xyz".toList), ("99".toList)⟩ := by decide

/-- Environment for the C4 theorem: the `get_list` lookup raises on the
canonical `at://` address and on the schemeless alternative, and
succeeds on the final alphanumeric-only retry address. -/
def envC4 : List Char → Option Nat := fun a =>
  if a = altUriFromParts ("did:plc:abc".toList) ("ab3".toList) then some 0
  else none

/-- C4: with inputs `did:plc:abc` / `ab-3`, the first two lookups fail and
the third retry (list id stripped to `ab3`) is attempted and succeeds,
yet `get_posts_from_bluesky_list` discards that success: it proceeds with
no response and returns the empty mapping, refuting the claim that the
fallback chain stops at the first success and proceeds with it. -/
theorem C4_retry_success_discarded :
    envC4 (altUriFromParts ("did:plc:abc".toList) ("ab3".toList)) = some 0 ∧
    altUriFromParts ("did:plc:abc".toList) ("ab3".toList)
        ∈ (resolve_list envC4 ("did:plc:abc".toList) ("ab-3".toList)).attempted ∧
    (resolve_list envC4 ("did:plc:abc".toList) ("ab-3".toList)).response = none ∧
    get_posts_from_bluesky_list_model envC4
        (fun _ => [(("x".toList), [0])]) ("did:plc:abc".toList) ("ab-3".toList)
      = [] := by decide

/-- The backfill fold never appends an element already present in its
accumulator. -/
theorem foldl_append_new_count (l : List (List Char)) (acc : List (List Char))
    (u : List Char) (hu : u ∈ acc) :
    (l.foldl (fun a v => if v ∈ a then a else a ++ [v]) acc).count u
      = acc.count u := by
  induction l generalizing acc with
  | nil => rfl
  | cons x xs ih =>
    simp only [List.foldl_cons]
    by_cases hx : x ∈ acc
    · rw [if_pos hx]; exact ih acc hu
    · rw [if_neg hx]
      have hmem : u ∈ acc ++ [x] := List.mem_append_left _ hu
      rw [ih _ hmem, List.count_append]
      have : x ≠ u := fun h => hx (h ▸ hu)
      simp [List.count_singleton, this]

/-- The concrete text of the C9 claim. -/
def textC9 : List Char := ("see https://a.example/x and https://a.example/x".toList)

/-- C9: the regex pass extracts the URL twice, but the backfill step
appends a regex URL only when it is not already present: with no facet
URLs the result is the single entry, with the URL already present from
the structured pass the list is unchanged, and in general a URL already
present in the facet list is never appended again. -/
theorem C9_url_dedup :
    appendNewUrls [] textC9 = [("https://a.example/x".toList)] ∧
    appendNewUrls [("https://a.example/x".toList)] textC9
        = [("https://a.example/x".toList)] ∧
    ∀ (facets : List (List Char)) (text : List Char) (u : List Char),
      u ∈ facets → (appendNewUrls facets text).count u = facets.count u := by
  refine ⟨by decide, by decide, ?_⟩
  intro facets text u hu
  exact foldl_append_new_count _ _ _ hu

/-- C9 witness: deduplication instantiated at the claim's concrete URL. -/
theorem C9_url_dedup_witness :
    (appendNewUrls [("https://a.example/x".toList)] textC9).count
        ("https://a.example/x".toList)
      = ([("https://a.example/x".toList)] : List (List Char)).count
        ("https://a.example/x".toList) :=
  C9_url_dedup.2.2 [("https://a.example/x".toList)] textC9
    ("https://a.example/x".toList) (by decide)

/-- Reading a bucket after one insertion: the bucket of the inserted key
gains the post at its end; all other buckets are unchanged. -/
theorem lookupGroup_addToGroup (m : List (List Char × List α)) (h h' : List Char)
    (p : α) :
    lookupGroup (addToGroup m h p) h'
      = lookupGroup m h' ++ (if h' = h then [p] else []) := by
  induction m with
  | nil =>
    simp only [addToGroup, lookupGroup]
    by_cases hh : h' = h
    · subst hh; simp [lookupGroup]
    · have hh2 : ¬(h = h') := fun hc => hh hc.symm
      simp [lookupGroup, hh, hh2]
  | cons kv rest ih =>
    obtain ⟨k, ps⟩ := kv
    by_cases hk : k = h
    · subst hk
      simp only [addToGroup, if_pos rfl, lookupGroup]
      by_cases hh : k = h'
      · subst hh
        simp
      · have hh2 : ¬(h' = k) := fun hc => hh hc.symm
        simp [hh, hh2]
    · simp only [addToGroup, if_neg hk, lookupGroup]
      by_cases hh : k = h'
      · subst hh
        simp [hk]
      · simp [hh, ih]

/-- One insertion grows the total size by one. -/
theorem groupSize_addToGroup (m : List (List Char × List α)) (h : List Char)
    (p : α) : groupSize (addToGroup m h p) = groupSize m + 1 := by
  induction m with
  | nil => simp [addToGroup, groupSize]
  | cons kv rest ih =>
    obtain ⟨k, ps⟩ := kv
    by_cases hk : k = h
    · simp only [addToGroup, if_pos hk, groupSize, List.map_cons, List.sum_cons,
        List.length_append, List.length_cons, List.length_nil]
      omega
    · simp only [addToGroup, if_neg hk, groupSize, List.map_cons, List.sum_cons]
      simp only [groupSize] at ih
      omega

/-- C10: grouping normalized posts by author handle is a partition of
the input: the bucket of each handle is exactly the subsequence of input
posts having that author handle (preserving their relative order), and
the bucket sizes sum to the input length. -/
theorem C10_group_partition {α : Type} (key : α → List Char) (posts : List α)
    (h : List Char) :
    lookupGroup (organize_by_author key posts) h
        = posts.filter (fun p => decide (key p = h)) ∧
    groupSize (organize_by_author key posts) = posts.length := by
  have main : ∀ (l : List α) (m : List (List Char × List α)),
      (∀ h' : List Char,
        lookupGroup (l.foldl (fun m p => addToGroup m (key p) p) m) h'
          = lookupGroup m h' ++ l.filter (fun p => decide (key p = h')))
      ∧ groupSize (l.foldl (fun m p => addToGroup m (key p) p) m)
          = groupSize m + l.length := by
    intro l
    induction l with
    | nil => intro m; simp
    | cons p rest ih =>
      intro m
      constructor
      · intro h'
        simp only [List.foldl_cons]
        rw [(ih (addToGroup m (key p) p)).1 h', lookupGroup_addToGroup]
        by_cases hp : key p = h'
        · subst hp
          simp [List.filter_cons]
        · have hp2 : ¬(h' = key p) := fun hc => hp hc.symm
          simp [List.filter_cons, hp, hp2]
      · simp only [List.foldl_cons]
        rw [(ih (addToGroup m (key p) p)).2, groupSize_addToGroup]
        simp only [List.length_cons]
        omega
  constructor
  · have hmain := (main posts []).1 h
    simpa [organize_by_author, lookupGroup] using hmain
  · have hmain := (main posts []).2
    simpa [organize_by_author, groupSize] using hmain

/-- After the defensive double-clean, the constructed list URI contains
no double quote, so the dead `endswith('"')` retry never fires. -/
theorem dedupQuotes_getLast_ne (u : List Char) :
    ¬((dedupQuotes u).getLast? = some dquote) := by
  intro hlast
  have hmem : dquote ∈ dedupQuotes u := List.mem_of_getLast?_eq_some hlast
  unfold dedupQuotes at hmem
  by_cases hq : u.any isQuoteChar
  · rw [if_pos hq] at hmem
    have := (List.mem_filter.mp hmem).2
    simp [isQuoteChar] at this
  · rw [if_neg hq] at hmem
    exact hq (List.any_eq_true.mpr ⟨dquote, hmem, by simp [isQuoteChar]⟩)

/-- C3: when the `get_list` lookup raises on the canonical address and on
the alternative schemeless address (the trailing-quote retry can never
fire, and the final retry's outcome is discarded), the resolution yields
no response, `get_posts_from_bluesky_list` returns the empty mapping, and
every attempted address appears among the reported ones. -/
theorem C3_list_failure_empty {ρ α : Type} (env : List Char → Option ρ)
    (pipeline : ρ → List (List Char × List α)) (did0 lid0 : List Char)
    (h1 : env (canonicalUri did0 lid0) = none)
    (h2 : env (cleanAltUri did0 lid0) = none) :
    (resolve_list env did0 lid0).response = none ∧
    get_posts_from_bluesky_list_model env pipeline did0 lid0 = [] ∧
    ∀ a ∈ (resolve_list env did0 lid0).attempted,
      a ∈ (resolve_list env did0 lid0).reported := by
  have hres : ∀ x ∈ (resolve_list env did0 lid0).attempted,
      x ∈ (resolve_list env did0 lid0).reported := by
    intro x hx
    unfold resolve_list at hx ⊢
    rw [h1, h2] at hx ⊢
    simp only at hx ⊢
    rcases List.mem_cons.mp hx with hx0 | hx1
    · exact List.mem_cons.mpr (Or.inl hx0)
    · exact List.mem_cons.mpr (Or.inr (List.mem_append_left _ hx1))
  refine ⟨?_, ?_, hres⟩
  · unfold resolve_list
    rw [h1, h2]
  · unfold get_posts_from_bluesky_list_model resolve_list
    rw [h1, h2]

/-- Environment in which every `get_list` lookup raises. -/
def envNone : List Char → Option Nat := fun _ => none

/-- C3 witness: with an always-raising lookup and a non-trivial
downstream pipeline, the fetch of list `99` of `did:plc:abc` returns the
empty mapping. -/
theorem C3_list_failure_empty_witness :
    get_posts_from_bluesky_list_model envNone
        (fun _ => [(("x".toList), [0])]) ("did:plc:abc".toList) ("99".toList)
      = [] :=
  (C3_list_failure_empty envNone (fun _ => [(("x".toList), [0])])
    ("did:plc:abc".toList) ("99".toList) rfl rfl).2.1

/-- The fetcher pagination loop issues no call once the remaining amount
is non-positive. -/
theorem user_posts_aux_nonpos {α : Type} (feed : Nat → Int → Option (FeedPage α))
    (limit : Int) (fuel i : Nat) (c : Int) (h : limit - c ≤ 0) :
    user_posts_aux feed limit fuel i c = ([], []) := by
  cases fuel with
  | zero => rfl
  | succ n =>
    have hc : min 100 (limit - c) ≤ 0 := le_trans (min_le_right _ _) h
    simp [user_posts_aux, hc]

/-- The search pagination loop issues no call once the remaining amount
is non-positive. -/
theorem search_posts_aux_nonpos {α : Type} (feed : Nat → Int → FeedPage α)
    (limit : Int) (fuel i : Nat) (c : Int) (h : limit - c ≤ 0) :
    search_posts_aux feed limit fuel i c = ([], []) := by
  cases fuel with
  | zero => rfl
  | succ n =>
    have hc : min 100 (limit - c) ≤ 0 := le_trans (min_le_right _ _) h
    simp [search_posts_aux, hc]

/-- C8: for a non-positive requested total, both pagination drivers issue
zero API calls and return an empty post list. -/
theorem C8_nonpositive_limit {α β : Type}
    (feedU : Nat → Int → Option (FeedPage α)) (feedS : Nat → Int → FeedPage β)
    (limit : Int) (hl : limit ≤ 0) :
    get_user_posts_run feedU limit = ([], []) ∧
    search_posts_run feedS limit = ([], []) := by
  constructor
  · exact user_posts_aux_nonpos feedU limit _ 0 0 (by omega)
  · exact search_posts_aux_nonpos feedS limit _ 0 0 (by omega)

/-- C8 witness: at `limit = -7` both drivers issue no call and return no
posts. -/
theorem C8_nonpositive_limit_witness :
    get_user_posts_run (fun _ _ => (none : Option (FeedPage Unit))) (-7)
        = ([], []) ∧
    search_posts_run (fun _ _ => ({ posts := [], hasCursor := false } :
        FeedPage Unit)) (-7) = ([], []) :=
  C8_nonpositive_limit _ _ (-7) (by decide)

/-- For a positive requested total, the Python call budget
`max(1, (limit + 99) // 100)` is exactly the ceiling
`(limit + 99) / 100`. -/
theorem apiCallsNeeded_pos (limit : Int) (hl : 0 < limit) :
    apiCallsNeeded limit = (limit.toNat + 99) / 100 := by
  unfold apiCallsNeeded
  obtain ⟨n, rfl⟩ : ∃ n : Nat, limit = (n : Int) := ⟨limit.toNat, by omega⟩
  have hdiv : ((n : Int) + 99).fdiv 100 = (((n + 99) / 100 : Nat) : Int) := by
    rw [Int.fdiv_eq_ediv _ (by norm_num)]
    norm_cast
  rw [hdiv]
  have h1 : 1 ≤ (n + 99) / 100 := by omega
  omega

/-- The fetcher driver issues at most `fuel` calls. -/
theorem user_posts_aux_len_le {α : Type} (feed : Nat → Int → Option (FeedPage α))
    (limit : Int) :
    ∀ (fuel i : Nat) (c : Int), (user_posts_aux feed limit fuel i c).1.length ≤ fuel := by
  intro fuel
  induction fuel with
  | zero => intro i c; simp [user_posts_aux]
  | succ n ih =>
    intro i c
    simp only [user_posts_aux]
    by_cases hc : min 100 (limit - c) ≤ 0
    · simp [hc]
    · rw [if_neg hc]
      cases hfe : feed i (min 100 (limit - c)) with
      | none => simp
      | some page =>
        dsimp only
        by_cases hp : page.posts.length = 0
        · simp [hp]
        · rw [if_neg hp]
          simpa using Nat.succ_le_succ (ih (i + 1) (c + page.posts.length))

/-- Every request issued by the fetcher driver is positive and at most
the page cap of 100. -/
theorem user_posts_aux_req_bounds {α : Type}
    (feed : Nat → Int → Option (FeedPage α)) (limit : Int) :
    ∀ (fuel i : Nat) (c : Int) (r : Int),
      r ∈ (user_posts_aux feed limit fuel i c).1 → 0 < r ∧ r ≤ 100 := by
  intro fuel
  induction fuel with
  | zero => intro i c r hr; simp [user_posts_aux] at hr
  | succ n ih =>
    intro i c r hr
    simp only [user_posts_aux] at hr
    by_cases hc : min 100 (limit - c) ≤ 0
    · simp [hc] at hr
    · rw [if_neg hc] at hr
      cases hfe : feed i (min 100 (limit - c)) with
      | none =>
        rw [hfe] at hr
        simp at hr
        subst hr
        constructor <;> omega
      | some page =>
        rw [hfe] at hr
        dsimp only at hr
        by_cases hp : page.posts.length = 0
        · rw [if_pos hp] at hr
          simp at hr
          subst hr
          constructor <;> omega
        · rw [if_neg hp] at hr
          rcases List.mem_cons.mp hr with hr0 | hr1
          · subst hr0
            constructor <;> omega
          · exact ih (i + 1) (c + page.posts.length) r hr1

/-- When every call returns a full page, the fetcher driver's call count
is exactly `min fuel ceil(remaining / 100)`. -/
theorem user_posts_aux_full {α : Type} (feed : Nat → Int → Option (FeedPage α))
    (limit : Int)
    (hfull : ∀ (i : Nat) (req : Int), 0 < req →
      ∃ page, feed i req = some page ∧ (page.posts.length : Int) = req) :
    ∀ (fuel i : Nat) (c : Int),
      (user_posts_aux feed limit fuel i c).1.length
        = min fuel (((limit - c).toNat + 99) / 100) := by
  intro fuel
  induction fuel with
  | zero => intro i c; simp [user_posts_aux]
  | succ n ih =>
    intro i c
    simp only [user_posts_aux]
    by_cases hc : min 100 (limit - c) ≤ 0
    · rw [if_pos hc]
      simp only [List.length_nil]
      omega
    · rw [if_neg hc]
      obtain ⟨page, hfe, hlen⟩ := hfull i (min 100 (limit - c)) (by omega)
      rw [hfe]
      dsimp only
      have hne : ¬(page.posts.length = 0) := by omega
      rw [if_neg hne]
      simp only [List.length_cons]
      rw [ih (i + 1) (c + page.posts.length)]
      omega

/-- The search driver issues at most `fuel` calls. -/
theorem search_posts_aux_len_le {α : Type} (feed : Nat → Int → FeedPage α)
    (limit : Int) :
    ∀ (fuel i : Nat) (c : Int), (search_posts_aux feed limit fuel i c).1.length ≤ fuel := by
  intro fuel
  induction fuel with
  | zero => intro i c; simp [search_posts_aux]
  | succ n ih =>
    intro i c
    simp only [search_posts_aux]
    by_cases hc : min 100 (limit - c) ≤ 0
    · simp [hc]
    · rw [if_neg hc]
      by_cases hp : (feed i (min 100 (limit - c))).posts.length = 0
      · simp [hp]
      · rw [if_neg hp]
        by_cases hs : (feed i (min 100 (limit - c))).hasCursor = false ∨
            limit ≤ c + ((feed i (min 100 (limit - c))).posts.length : Int)
        · rw [if_pos hs]; simp
        · rw [if_neg hs]
          simpa using Nat.succ_le_succ
            (ih (i + 1) (c + (feed i (min 100 (limit - c))).posts.length))

/-- Every request issued by the search driver is positive and at most
the page cap of 100. -/
theorem search_posts_aux_req_bounds {α : Type} (feed : Nat → Int → FeedPage α)
    (limit : Int) :
    ∀ (fuel i : Nat) (c : Int) (r : Int),
      r ∈ (search_posts_aux feed limit fuel i c).1 → 0 < r ∧ r ≤ 100 := by
  intro fuel
  induction fuel with
  | zero => intro i c r hr; simp [search_posts_aux] at hr
  | succ n ih =>
    intro i c r hr
    simp only [search_posts_aux] at hr
    by_cases hc : min 100 (limit - c) ≤ 0
    · simp [hc] at hr
    · rw [if_neg hc] at hr
      by_cases hp : (feed i (min 100 (limit - c))).posts.length = 0
      · rw [if_pos hp] at hr
        simp at hr
        subst hr
        constructor <;> omega
      · rw [if_neg hp] at hr
        by_cases hs : (feed i (min 100 (limit - c))).hasCursor = false ∨
            limit ≤ c + ((feed i (min 100 (limit - c))).posts.length : Int)
        · rw [if_pos hs] at hr
          simp at hr
          subst hr
          constructor <;> omega
        · rw [if_neg hs] at hr
          rcases List.mem_cons.mp hr with hr0 | hr1
          · subst hr0
            constructor <;> omega
          · exact ih (i + 1) (c + (feed i (min 100 (limit - c))).posts.length) r hr1

/-- When every call returns a full page with a cursor, the search
driver's call count is exactly `min fuel ceil(remaining / 100)`. -/
theorem search_posts_aux_full {α : Type} (feed : Nat → Int → FeedPage α)
    (limit : Int)
    (hfull : ∀ (i : Nat) (req : Int), 0 < req →
      ((feed i req).posts.length : Int) = req ∧ (feed i req).hasCursor = true) :
    ∀ (fuel i : Nat) (c : Int),
      (search_posts_aux feed limit fuel i c).1.length
        = min fuel (((limit - c).toNat + 99) / 100) := by
  intro fuel
  induction fuel with
  | zero => intro i c; simp [search_posts_aux]
  | succ n ih =>
    intro i c
    simp only [search_posts_aux]
    by_cases hc : min 100 (limit - c) ≤ 0
    · rw [if_pos hc]
      simp only [List.length_nil]
      omega
    · rw [if_neg hc]
      obtain ⟨hlen, hcur⟩ := hfull i (min 100 (limit - c)) (by omega)
      have hne : ¬((feed i (min 100 (limit - c))).posts.length = 0) := by omega
      rw [if_neg hne]
      by_cases hstop : (feed i (min 100 (limit - c))).hasCursor = false ∨
          limit ≤ c + ((feed i (min 100 (limit - c))).posts.length : Int)
      · rw [if_pos hstop]
        simp only [List.length_cons, List.length_nil]
        rcases hstop with hs | hs
        · rw [hcur] at hs; cases hs
        · omega
      · rw [if_neg hstop]
        simp only [List.length_cons]
        rw [ih (i + 1) (c + (feed i (min 100 (limit - c))).posts.length)]
        have hgt : ¬(limit ≤ c + ((feed i (min 100 (limit - c))).posts.length : Int)) :=
          fun hb => hstop (Or.inr hb)
        omega



/-! ### The list-feed pagination driver
(`list.get_posts_from_bluesky_list`, lines 173–335) -/

/-- `api_call_limit = min(100, limit)`. -/
def listApiCallLimit (limit : Int) : Int := min 100 limit

/-- `api_calls_needed = (limit + api_call_limit - 1) // api_call_limit`. -/
def listCallsNeeded (limit : Int) : Nat :=
  ((limit + listApiCallLimit limit - 1).fdiv (listApiCallLimit limit)).toNat

/-- Body of the list-feed pagination loop: request
`min(api_call_limit, limit - collected)` (no pre-call stop and no
empty-page break); after a page, stop when the response has no cursor or
the collected count reached the requested limit. -/
def list_feed_aux (feed : Nat → Int → FeedPage α) (limit : Int) :
    Nat → Nat → Int → List Int × List α
  | 0, _, _ => ([], [])
  | fuel + 1, i, collected =>
    let req := min (listApiCallLimit limit) (limit - collected)
    let page := feed i req
    if page.hasCursor = false ∨ limit ≤ collected + (page.posts.length : Int) then
      ([req], page.posts)
    else
      let r := list_feed_aux feed limit fuel (i + 1)
        (collected + (page.posts.length : Int))
      (req :: r.1, page.posts ++ r.2)

/-- The pagination loop of `get_posts_from_bluesky_list`. -/
def list_feed_run (feed : Nat → Int → FeedPage α) (limit : Int) :
    List Int × List α :=
  list_feed_aux feed limit (listCallsNeeded limit) 0 0

/-- For a positive requested total, the list driver's call budget is the
same ceiling `(limit + 99) / 100`. -/
theorem listCallsNeeded_pos (limit : Int) (hl : 0 < limit) :
    listCallsNeeded limit = (limit.toNat + 99) / 100 := by
  unfold listCallsNeeded listApiCallLimit
  obtain ⟨n, rfl⟩ : ∃ n : Nat, limit = (n : Int) := ⟨limit.toNat, by omega⟩
  have hn : 0 < n := by omega
  have hcap : min (100 : Int) (n : Int) = ((min 100 n : Nat) : Int) := by omega
  rw [hcap]
  have hnum : (n : Int) + ((min 100 n : Nat) : Int) - 1
      = ((n + min 100 n - 1 : Nat) : Int) := by omega
  rw [hnum, Int.fdiv_eq_ediv _ (by omega), ← Int.ofNat_ediv]
  by_cases h100 : n ≤ 100
  · have hm : min 100 n = n := by omega
    rw [hm]
    have h1 : (n + n - 1) / n = 1 :=
      Nat.div_eq_of_lt_le (by omega) (by omega)
    rw [h1]
    omega
  · have hm : min 100 n = 100 := by omega
    rw [hm]
    omega

/-- The list driver issues at most `fuel` calls. -/
theorem list_feed_aux_len_le {α : Type} (feed : Nat → Int → FeedPage α)
    (limit : Int) :
    ∀ (fuel i : Nat) (c : Int), (list_feed_aux feed limit fuel i c).1.length ≤ fuel := by
  intro fuel
  induction fuel with
  | zero => intro i c; simp [list_feed_aux]
  | succ n ih =>
    intro i c
    simp only [list_feed_aux]
    by_cases hs : (feed i (min (listApiCallLimit limit) (limit - c))).hasCursor = false ∨
        limit ≤ c + ((feed i (min (listApiCallLimit limit) (limit - c))).posts.length : Int)
    · rw [if_pos hs]; simp
    · rw [if_neg hs]
      simpa using Nat.succ_le_succ
        (ih (i + 1) (c + (feed i (min (listApiCallLimit limit) (limit - c))).posts.length))

/-- Every request issued by the list driver while the collected count is
below the positive requested total is positive and at most 100. -/
theorem list_feed_aux_req_bounds {α : Type} (feed : Nat → Int → FeedPage α)
    (limit : Int) (hl : 0 < limit) :
    ∀ (fuel i : Nat) (c : Int), c < limit →
      ∀ r ∈ (list_feed_aux feed limit fuel i c).1, 0 < r ∧ r ≤ 100 := by
  intro fuel
  induction fuel with
  | zero => intro i c _ r hr; simp [list_feed_aux] at hr
  | succ n ih =>
    intro i c hc r hr
    simp only [list_feed_aux] at hr
    by_cases hs : (feed i (min (listApiCallLimit limit) (limit - c))).hasCursor = false ∨
        limit ≤ c + ((feed i (min (listApiCallLimit limit) (limit - c))).posts.length : Int)
    · rw [if_pos hs] at hr
      simp at hr
      subst hr
      unfold listApiCallLimit
      constructor <;> omega
    · rw [if_neg hs] at hr
      rcases List.mem_cons.mp hr with hr0 | hr1
      · subst hr0
        unfold listApiCallLimit
        constructor <;> omega
      · have hgt : ¬(limit ≤ c + ((feed i (min (listApiCallLimit limit) (limit - c))).posts.length : Int)) :=
          fun hb => hs (Or.inr hb)
        exact ih (i + 1) _ (by omega) r hr1

/-- When every call returns a full page with a cursor, the list driver's
call count is exactly `min fuel ceil(remaining / 100)`. -/
theorem list_feed_aux_full {α : Type} (feed : Nat → Int → FeedPage α)
    (limit : Int) (hl : 0 < limit)
    (hfull : ∀ (i : Nat) (req : Int), 0 < req →
      ((feed i req).posts.length : Int) = req ∧ (feed i req).hasCursor = true) :
    ∀ (fuel i : Nat) (c : Int), 0 ≤ c → c < limit →
      (list_feed_aux feed limit fuel i c).1.length
        = min fuel (((limit - c).toNat + 99) / 100) := by
  intro fuel
  induction fuel with
  | zero => intro i c _ _; simp [list_feed_aux]
  | succ n ih =>
    intro i c hc0 hc
    simp only [list_feed_aux]
    obtain ⟨hlen, hcur⟩ :=
      hfull i (min (listApiCallLimit limit) (limit - c))
        (by unfold listApiCallLimit; omega)
    set L := (feed i (min (listApiCallLimit limit) (limit - c))).posts.length
      with hLdef
    have hcap : listApiCallLimit limit = min 100 limit := rfl
    have hlen2 : (L : Int) = min 100 (limit - c) := by omega
    by_cases hstop : (feed i (min (listApiCallLimit limit) (limit - c))).hasCursor = false ∨
        limit ≤ c + (L : Int)
    · rw [if_pos hstop]
      simp only [List.length_cons, List.length_nil]
      rcases hstop with hs | hs
      · rw [hcur] at hs; cases hs
      · omega
    · rw [if_neg hstop]
      simp only [List.length_cons]
      have hgt : ¬(limit ≤ c + (L : Int)) := fun hb => hstop (Or.inr hb)
      rw [ih (i + 1) (c + (L : Int)) (by omega) (by omega)]
      omega

/-- C7: for every positive requested total, the fetcher, search and
list-feed pagination drivers issue at most `ceil(limit / 100)` API
calls — exactly that many when the source is not exhausted (every call
answers with a full page, and for the cursor-driven drivers a
continuation cursor) — and no single call requests more than the page
cap of 100. -/
theorem C7_pagination_bounds {α β γ : Type}
    (feedU : Nat → Int → Option (FeedPage α)) (feedS : Nat → Int → FeedPage β)
    (feedL : Nat → Int → FeedPage γ) (limit : Int) (hl : 0 < limit) :
    ((get_user_posts_run feedU limit).1.length ≤ (limit.toNat + 99) / 100
      ∧ (∀ r ∈ (get_user_posts_run feedU limit).1, 0 < r ∧ r ≤ 100)
      ∧ ((∀ (i : Nat) (req : Int), 0 < req →
            ∃ page, feedU i req = some page ∧ (page.posts.length : Int) = req) →
          (get_user_posts_run feedU limit).1.length = (limit.toNat + 99) / 100))
    ∧ ((search_posts_run feedS limit).1.length ≤ (limit.toNat + 99) / 100
      ∧ (∀ r ∈ (search_posts_run feedS limit).1, 0 < r ∧ r ≤ 100)
      ∧ ((∀ (i : Nat) (req : Int), 0 < req →
            ((feedS i req).posts.length : Int) = req
              ∧ (feedS i req).hasCursor = true) →
          (search_posts_run feedS limit).1.length = (limit.toNat + 99) / 100))
    ∧ ((list_feed_run feedL limit).1.length ≤ (limit.toNat + 99) / 100
      ∧ (∀ r ∈ (list_feed_run feedL limit).1, 0 < r ∧ r ≤ 100)
      ∧ ((∀ (i : Nat) (req : Int), 0 < req →
            ((feedL i req).posts.length : Int) = req
              ∧ (feedL i req).hasCursor = true) →
          (list_feed_run feedL limit).1.length = (limit.toNat + 99) / 100)) := by
  have hceil := apiCallsNeeded_pos limit hl
  have hceilL := listCallsNeeded_pos limit hl
  refine ⟨⟨?_, ?_, ?_⟩, ⟨?_, ?_, ?_⟩, ?_, ?_, ?_⟩
  · unfold get_user_posts_run
    rw [← hceil]
    exact user_posts_aux_len_le feedU limit _ 0 0
  · intro r hr
    unfold get_user_posts_run at hr
    exact user_posts_aux_req_bounds feedU limit _ 0 0 r hr
  · intro hfull
    unfold get_user_posts_run
    rw [user_posts_aux_full feedU limit hfull _ 0 0, hceil]
    simp only [sub_zero]
    omega
  · unfold search_posts_run
    rw [← hceil]
    exact search_posts_aux_len_le feedS limit _ 0 0
  · intro r hr
    unfold search_posts_run at hr
    exact search_posts_aux_req_bounds feedS limit _ 0 0 r hr
  · intro hfull
    unfold search_posts_run
    rw [search_posts_aux_full feedS limit hfull _ 0 0, hceil]
    simp only [sub_zero]
    omega
  · unfold list_feed_run
    rw [← hceilL]
    exact list_feed_aux_len_le feedL limit _ 0 0
  · intro r hr
    unfold list_feed_run at hr
    exact list_feed_aux_req_bounds feedL limit hl _ 0 0 hl r hr
  · intro hfull
    unfold list_feed_run
    rw [list_feed_aux_full feedL limit hl hfull _ 0 0 le_rfl hl, hceilL]
    simp only [sub_zero]
    omega

/-- A fetcher-side source that always answers with a full page. -/
def fullFeedU : Nat → Int → Option (FeedPage Unit) :=
  fun _ req => some { posts := List.replicate req.toNat (), hasCursor := true }

/-- A search- or list-side source that always answers with a full page
and a cursor. -/
def fullFeedS : Nat → Int → FeedPage Unit :=
  fun _ req => { posts := List.replicate req.toNat (), hasCursor := true }

/-- C7 witness: at `limit = 250` with unexhausted sources all three
drivers issue exactly `ceil(250 / 100) = 3` calls. -/
theorem C7_pagination_bounds_witness :
    (get_user_posts_run fullFeedU 250).1.length = ((250 : Int).toNat + 99) / 100
    ∧ (search_posts_run fullFeedS 250).1.length = ((250 : Int).toNat + 99) / 100
    ∧ (list_feed_run fullFeedS 250).1.length = ((250 : Int).toNat + 99) / 100 := by
  have h := C7_pagination_bounds fullFeedU fullFeedS fullFeedS 250 (by decide)
  have hfullS : ∀ (i : Nat) (req : Int), 0 < req →
      ((fullFeedS i req).posts.length : Int) = req
        ∧ (fullFeedS i req).hasCursor = true := by
    intro i req hreq
    refine ⟨?_, rfl⟩
    simp [fullFeedS]
    omega
  refine ⟨h.1.2.2 ?_, h.2.1.2.2 hfullS, h.2.2.2.2 hfullS⟩
  intro i req hreq
  refine ⟨{ posts := List.replicate req.toNat (), hasCursor := true }, rfl, ?_⟩
  simp
  omega
